import Mathlib

/-!
Verification of the conversational flow client state machine of the
AI-Accelerate front-end (the chat widget duplicated across
`src/pages/embed.tsx`, `src/components/ChatBot.tsx` and
`src/components/EmbedCustomizer.tsx`).

The embedding below is a direct shallow translation of the flow-handling
logic of `src/pages/embed.tsx` (the embed widget surface, which the other
two surfaces duplicate almost verbatim).  JavaScript falsiness of the raw
backend fields is modelled by the convention that an absent string field
is the empty string (the code only ever uses these fields in positions
where `undefined` and `""` behave identically: `msg.content || msg.message
|| ""`, `msg.content?.replace(...) || msg.content`, `msg.options || []`).
Event ids (`Date.now().toString() + Math.random()` in the source) are
modelled by a monotone counter threaded through the state; the spec
declares ids opaque with per-session uniqueness as the only invariant.
Network calls are modelled by passing the transport outcome
(`Except Unit _`, where `Except.error` is a rejected fetch / JSON parse
failure) into the operation; emitted requests and `window.open`
navigations are returned as an explicit effect list.
-/

/-- Origin of a chat event: the `from` / `sender` field of the source's
`Message` interface. -/
inductive Origin where
  | user
  | bot
deriving DecidableEq, Repr

/-- One displayed chat message, the `Message` interface of
`src/pages/embed.tsx` (lines 12-21).  `timestamp` is not modelled (wall
clock); `id` is a counter value. -/
structure ChatEvent where
  id : Nat
  sender : Origin
  text : String
  showConfirmationButtons : Bool
  showBranchOptions : Bool
  branchOptions : List String
  selectedBranch : Option String
deriving DecidableEq, Repr

/-- The envelope-level awaiting-input descriptor (`data.awaitingInput`);
only its `type` field is ever consumed by the client. -/
structure RawAwait where
  type : String
deriving DecidableEq, Repr

/-- A raw backend message as consumed by the client.  Absent `content` /
`message` are the empty string (JS falsy); absent `options` is `[]`
(the code writes `msg.options || []`, and `[]` is truthy in JS so an
explicit empty list is also kept as `[]`). -/
structure RawMessage where
  type : String
  content : String
  message : String
  awaitingInput : Bool
  options : List String
deriving DecidableEq, Repr

/-- The start / respond response envelope
`{ sessionId?, messages, awaitingInput, finished }`.  `ok` is the HTTP
`res.ok` flag: `handleSendMessage` throws on `!res.ok`, while `initFlow`
never checks it. -/
structure FlowResponse where
  ok : Bool
  sessionId : Option String
  messages : List RawMessage
  awaitingInput : Option RawAwait
  finished : Bool
deriving DecidableEq, Repr

/-- The `result` object of the ask-question response; absent `answer` is
the empty string (the code writes `data.result.answer || fallback`). -/
structure AnswerPayload where
  answer : String
deriving DecidableEq, Repr

/-- The ask-question response envelope: `ok` is the HTTP `res.ok` flag
and `result` is `none` when the payload lacks the `result` object (in
which case `data.result.answer` throws a TypeError that the catch block
absorbs). -/
structure AnswerResponse where
  ok : Bool
  result : Option AnswerPayload
deriving DecidableEq, Repr

/-- Request body of a respond call: `{ input }` or `{ optionIndexOrLabel }`. -/
inductive ReqBody where
  | input (text : String)
  | optionIndexOrLabel (text : String)
deriving DecidableEq, Repr

/-- Observable side effects of an operation: a `window.open` navigation,
an outgoing respond request, or an outgoing ask request. -/
inductive Effect where
  | navigate (url : String)
  | respondReq (sessionId : String) (body : ReqBody)
  | askReq (question : String)
deriving DecidableEq, Repr

/-- The mutable root state of one conversation surface: the React state
hooks `messages`, `isLoading`, `currentPausedFor`, `sessionId`,
`flowFinished` of `src/pages/embed.tsx` (lines 27-34), plus the id
counter. -/
structure SessionState where
  events : List ChatEvent
  isLoading : Bool
  currentPausedFor : Option RawAwait
  sessionId : Option String
  flowFinished : Bool
  nextId : Nat
deriving DecidableEq, Repr

/-- State at widget mount. -/
def initialState : SessionState :=
  { events := [], isLoading := false, currentPausedFor := none,
    sessionId := none, flowFinished := false, nextId := 0 }

/-- Fallback bot text shown when the start call fails
(`embed.tsx` line 230). -/
def startFallbackText : String :=
  "Hello! I\x27m here to help. What would you like to know?"

/-- Completion notice appended when the start response already signals
`finished` (`embed.tsx` line 212). -/
def startCompletionText : String := "Feel free to ask me any questions!"

/-- Completion notice appended when a respond response signals
`finished` (`embed.tsx` line 431). -/
def respondCompletionText : String :=
  "Thank you! The conversation flow has ended. Feel free to ask me any questions!"

/-- Fallback bot text on a failed respond call (`embed.tsx` line 445). -/
def connectErrorText : String :=
  "Sorry, I\x27m having trouble connecting right now. Please try again."

/-- Fallback bot text on a failed ask call (`embed.tsx` line 292). -/
def askErrorText : String :=
  "I\x27m having trouble answering that. Please try again."

/-- Fallback answer when the ask payload has a `result` object but no
answer (`embed.tsx` line 280). -/
def noAnswerText : String := "I couldn\x27t find an answer to that question."

/-- The literal the redirect handler strips: `"Redirecting to: "`. -/
def redirectPat : String := "Redirecting to: "

/-- A freshly appended user event (no confirmation / branch decoration,
as in the `userMessage` literals of the source). -/
def mkUserEvent (id : Nat) (text : String) : ChatEvent :=
  { id := id, sender := Origin.user, text := text,
    showConfirmationButtons := false, showBranchOptions := false,
    branchOptions := [], selectedBranch := none }

/-- A plain bot event with no decoration. -/
def mkBotEvent (id : Nat) (text : String) : ChatEvent :=
  { id := id, sender := Origin.bot, text := text,
    showConfirmationButtons := false, showBranchOptions := false,
    branchOptions := [], selectedBranch := none }

/-- JavaScript `s.trim()`: strip leading and trailing whitespace. -/
def jsTrim (s : String) : String :=
  String.mk (((s.data.dropWhile Char.isWhitespace).reverse.dropWhile
    Char.isWhitespace).reverse)

/-- JavaScript `s.replace(pat, "")` on character lists: removes the first
occurrence of `pat`, leaves the list unchanged when `pat` does not
occur. -/
def jsRemoveFirst (pat : List Char) : List Char → List Char
  | [] => []
  | c :: rest =>
    if pat.isPrefixOf (c :: rest) then (c :: rest).drop pat.length
    else c :: jsRemoveFirst pat rest

/-- JavaScript `content.replace("Redirecting to: ", "")`. -/
def jsReplaceRedirect (content : String) : String :=
  String.mk (jsRemoveFirst redirectPat.data content.data)

/-- The URL a redirect message opens:
`msg.content?.replace("Redirecting to: ", "") || msg.content`
(`embed.tsx` line 385).  Empty result means no navigation happens
(the `if (url)` guard). -/
def redirectTarget (content : String) : String :=
  let r := jsReplaceRedirect content
  if r = "" then content else r

/-- Per-message normalization, the body of the `forEach` loop of
`initFlow` / `handleSendMessage` (`embed.tsx` lines 170-202 and
382-414): a redirect yields no event and possibly one navigation
effect; a branch message flagged awaiting input yields one text-less
branch event; anything else yields one generic bot event. -/
def normalizeMsg (nid : Nat) (msg : RawMessage) : List ChatEvent × List Effect :=
  if msg.type = "redirect" then
    let url := redirectTarget msg.content
    ([], if url = "" then [] else [Effect.navigate url])
  else if msg.type = "branch" ∧ msg.awaitingInput = true then
    ([{ id := nid, sender := Origin.bot, text := "",
        showConfirmationButtons := false, showBranchOptions := true,
        branchOptions := msg.options, selectedBranch := none }], [])
  else
    ([{ id := nid, sender := Origin.bot,
        text := if msg.content = "" then msg.message else msg.content,
        showConfirmationButtons :=
          decide (msg.type = "confirmation") && msg.awaitingInput,
        showBranchOptions := false,
        branchOptions := msg.options, selectedBranch := none }], [])

/-- Normalization of a whole message list, threading the id counter.
Returns (events, effects, next counter value). -/
def normalizeMsgs (nid : Nat) : List RawMessage → List ChatEvent × List Effect × Nat
  | [] => ([], [], nid)
  | m :: rest =>
    let one := normalizeMsg nid m
    let more := normalizeMsgs (nid + 1) rest
    (one.1 ++ more.1, one.2 ++ more.2.1, more.2.2)

/-- The answer text the ask call displays: the answer field on success,
`noAnswerText` when the answer is absent, `askErrorText` on transport
error, non-ok HTTP status (the `throw`), or missing `result` object (the
TypeError), all of which land in the catch block
(`embed.tsx` lines 270-295). -/
def askAnswerText (ar : Except Unit AnswerResponse) : String :=
  match ar with
  | Except.error _ => askErrorText
  | Except.ok data =>
    if data.ok then
      match data.result with
      | none => askErrorText
      | some payload => if payload.answer = "" then noAnswerText else payload.answer
    else askErrorText

/-- The `handleAskQuestion` function (`embed.tsx` lines 240-299): guard on empty
question or in-flight call, then optimistically append the user event,
issue the ask request, and append exactly one bot event whose text is
`askAnswerText`; the loading flag is cleared on every exit path
(`finally`).  `currentPausedFor`, `sessionId` and `flowFinished` are
never touched. -/
def handleAskQuestion (s : SessionState) (inputText : String)
    (ar : Except Unit AnswerResponse) : SessionState × List Effect :=
  let question := jsTrim inputText
  if question = "" ∨ s.isLoading = true then (s, [])
  else
    ({ s with
        events := s.events ++
          [mkUserEvent s.nextId question, mkBotEvent (s.nextId + 1) (askAnswerText ar)],
        nextId := s.nextId + 2, isLoading := false },
     [Effect.askReq question])

/-- The effective submission text, `overrideInput || input.trim()`: a
present non-empty override wins, otherwise the trimmed input box. -/
def sendText (overrideInput : Option String) (inputText : String) : String :=
  match overrideInput with
  | some o => if o = "" then jsTrim inputText else o
  | none => jsTrim inputText

/-- The catch block of the respond call: append one connectivity-apology
bot event and clear the loading flag (`embed.tsx` lines 438-451). -/
def flowErrorAppend (s1 : SessionState) : SessionState :=
  { s1 with events := s1.events ++ [mkBotEvent s1.nextId connectErrorText],
            nextId := s1.nextId + 1, isLoading := false }

/-- Settling a successful respond response (`embed.tsx` lines 373-437):
non-ok HTTP throws into the catch block; otherwise the messages are
normalized and appended, `currentPausedFor` is taken from the envelope,
and a `finished` response forces `flowFinished = true`, clears the
paused descriptor and appends the completion notice. -/
def applyFlowResponse (s1 : SessionState) (data : FlowResponse) :
    SessionState × List Effect :=
  if data.ok then
    let nm := normalizeMsgs s1.nextId data.messages
    if data.finished then
      ({ s1 with
          flowFinished := true, currentPausedFor := none,
          events := s1.events ++ nm.1 ++ [mkBotEvent nm.2.2 respondCompletionText],
          nextId := nm.2.2 + 1, isLoading := false }, nm.2.1)
    else
      ({ s1 with
          currentPausedFor := data.awaitingInput,
          events := s1.events ++ nm.1, nextId := nm.2.2, isLoading := false },
       nm.2.1)
  else (flowErrorAppend s1, [])

/-- The `handleSendMessage(overrideInput?, isBranchOption?)` function of
`src/pages/embed.tsx` (lines 301-452), with the preview branch omitted
(live mode).  `inputText` is the content of the input box;
`overrideInput` is the button-click override, and an empty override
falls back to the trimmed box content, matching
`overrideInput || input.trim()`.  Guards in source order: empty message
or in-flight call; finished flow routes to `handleAskQuestion` (which
reads the input box, not the override); missing session.  Accepted
submissions optimistically clear `currentPausedFor` and append the user
event before the request settles; the request body is
`optionIndexOrLabel` exactly when the paused descriptor captured before
the clear has type `"branch"` or the call is a branch-option click. -/
def handleSendMessage (s : SessionState) (overrideInput : Option String)
    (inputText : String) (isBranchOption : Bool)
    (fr : Except Unit FlowResponse) (ar : Except Unit AnswerResponse) :
    SessionState × List Effect :=
  let messageToSend := sendText overrideInput inputText
  if messageToSend = "" ∨ s.isLoading = true then (s, [])
  else if s.flowFinished = true then handleAskQuestion s inputText ar
  else
    match s.sessionId with
    | none => (s, [])
    | some sid =>
      let isBranchPaused : Bool := match s.currentPausedFor with
        | some p => p.type == "branch"
        | none => false
      let body := if isBranchPaused = true ∨ isBranchOption = true then
          ReqBody.optionIndexOrLabel messageToSend
        else ReqBody.input messageToSend
      let s1 := { s with
                  currentPausedFor := none,
                  events := s.events ++ [mkUserEvent s.nextId messageToSend],
                  nextId := s.nextId + 1, isLoading := true }
      match fr with
      | Except.error _ => (flowErrorAppend s1, [Effect.respondReq sid body])
      | Except.ok data =>
        let out := applyFlowResponse s1 data
        (out.1, Effect.respondReq sid body :: out.2)

/-- The `initFlow` effect of `src/pages/embed.tsx` (lines 157-237): on transport
failure the message list is replaced by the single fallback greeting
event; on success `sessionId` is stored when present, the messages are
normalized (note: `initFlow` performs no `res.ok` check), and a
`finished` response forces the terminal state with the start completion
notice, else the envelope's awaiting-input descriptor becomes the
paused state. -/
def startStep (s : SessionState) (r : Except Unit FlowResponse) :
    SessionState × List Effect :=
  match r with
  | Except.error _ =>
    ({ s with events := [mkBotEvent s.nextId startFallbackText],
              nextId := s.nextId + 1 }, [])
  | Except.ok data =>
    let s0 := match data.sessionId with
      | some sid => { s with sessionId := some sid }
      | none => s
    let nm := normalizeMsgs s0.nextId data.messages
    if data.finished then
      ({ s0 with
          flowFinished := true, currentPausedFor := none,
          events := nm.1 ++ [mkBotEvent nm.2.2 startCompletionText],
          nextId := nm.2.2 + 1 }, nm.2.1)
    else
      ({ s0 with
          currentPausedFor := data.awaitingInput,
          events := nm.1, nextId := nm.2.2 }, nm.2.1)

/-- The `initFlow` effect of `src/components/ChatBot.tsx` (lines 60-139) and of the
public bot-chat page in `src/components/EmbedCustomizer.tsx`: the
success path is identical to the embed surface, but the catch block only
raises a toast (a presentation effect outside the state machine) and
appends no fallback event, leaving the state unchanged. -/
def chatBotInitFlow (s : SessionState) (r : Except Unit FlowResponse) :
    SessionState × List Effect :=
  match r with
  | Except.error _ => (s, [])
  | Except.ok data => startStep s (Except.ok data)

/-- The `handleBranchOptionClick(option, messageId)` handler (`embed.tsx` lines
458-466): set `selectedBranch` on every event with the given id, then
submit via `handleSendMessage(option, true)` (the input box plays no
role for a non-empty option). -/
def handleBranchOptionClick (s : SessionState) (o : String) (eventId : Nat)
    (fr : Except Unit FlowResponse) (ar : Except Unit AnswerResponse) :
    SessionState × List Effect :=
  let s1 := { s with events := s.events.map (fun e =>
      if e.id == eventId then { e with selectedBranch := some o } else e) }
  handleSendMessage s1 (some o) "" true fr ar

/-- The user-level branch-selection operation: the option buttons are
rendered with `disabled={!!msg.selectedBranch}` (`embed.tsx` line 665),
so a click can only fire the handler when the identified event exists
and its `selectedBranch` is still unset. -/
def submitBranchOption (s : SessionState) (o : String) (eventId : Nat)
    (fr : Except Unit FlowResponse) (ar : Except Unit AnswerResponse) :
    SessionState × List Effect :=
  match s.events.find? (fun e => e.id == eventId) with
  | none => (s, [])
  | some e =>
    if e.selectedBranch.isSome then (s, [])
    else handleBranchOptionClick s o eventId fr ar

deriving instance DecidableEq for Except

/-- A user-triggered operation together with the outcome the transport
would deliver for whichever request it ends up issuing. -/
inductive UserOp where
  | freeText (text : String) (fr : Except Unit FlowResponse)
      (ar : Except Unit AnswerResponse)
  | confirmation (answer : String) (fr : Except Unit FlowResponse)
      (ar : Except Unit AnswerResponse)
  | branchOption (o : String) (eventId : Nat) (fr : Except Unit FlowResponse)
      (ar : Except Unit AnswerResponse)
deriving DecidableEq, Repr

/-- One run-to-completion step of the session state machine: free text
submits the input box, a confirmation click submits its literal answer
as an override (`handleConfirmationClick`), a branch click goes through
`submitBranchOption`. -/
def stepOp (s : SessionState) : UserOp → SessionState × List Effect
  | UserOp.freeText t fr ar => handleSendMessage s none t false fr ar
  | UserOp.confirmation a fr ar => handleSendMessage s (some a) "" false fr ar
  | UserOp.branchOption o eid fr ar => submitBranchOption s o eid fr ar

/-- Run a sequence of user operations. -/
def runOps (s : SessionState) : List UserOp → SessionState
  | [] => s
  | op :: rest => runOps (stepOp s op).1 rest

/-! ### Shared concrete states for witnesses and counterexamples -/

/-- A start response that immediately signals `finished` and carries no
session id. -/
def finishedResp : FlowResponse :=
  { ok := true, sessionId := none, messages := [], awaitingInput := none,
    finished := true }

/-- The state after a start call that immediately finished without
delivering a session id: `flowFinished = true`, `sessionId = none`. -/
def finishedState : SessionState :=
  (startStep initialState (Except.ok finishedResp)).1

/-- A successful ask response. -/
def goodAnswer : AnswerResponse := { ok := true, result := some { answer := "ans" } }

/-- A pending branch event offering two options. -/
def branchEvent0 : ChatEvent :=
  { id := 0, sender := Origin.bot, text := "", showConfirmationButtons := false,
    showBranchOptions := true, branchOptions := ["A", "B"], selectedBranch := none }

/-- A state whose single branch event already has a selected option. -/
def selectedState : SessionState :=
  { events := [{ branchEvent0 with selectedBranch := some "A" }],
    isLoading := false, currentPausedFor := none, sessionId := some "s1",
    flowFinished := false, nextId := 1 }

/-- A state with a pending branch event while a network call is in
flight. -/
def loadingState : SessionState :=
  { events := [branchEvent0], isLoading := true,
    currentPausedFor := some { type := "branch" }, sessionId := some "s1",
    flowFinished := false, nextId := 1 }

/-! ### Helper lemmas -/

/-- The ask call never touches the finished flag. -/
theorem ask_flowFinished (s : SessionState) (t : String)
    (ar : Except Unit AnswerResponse) :
    (handleAskQuestion s t ar).1.flowFinished = s.flowFinished := by
  unfold handleAskQuestion
  dsimp only
  split <;> rfl

/-- Once the flow is finished, `handleSendMessage` routes to Q&A (or
rejects) and the finished flag stays `true`. -/
theorem hsm_flowFinished_true (s : SessionState) (oi : Option String)
    (it : String) (ib : Bool) (fr : Except Unit FlowResponse)
    (ar : Except Unit AnswerResponse) (h : s.flowFinished = true) :
    (handleSendMessage s oi it ib fr ar).1.flowFinished = true := by
  unfold handleSendMessage
  dsimp only
  by_cases h1 : sendText oi it = "" ∨ s.isLoading = true
  · rw [if_pos h1]
    exact h
  · rw [if_neg h1, if_pos h, ask_flowFinished]
    exact h

/-- Once the flow is finished, a branch click cannot reset it. -/
theorem sbo_flowFinished_true (s : SessionState) (o : String) (eid : Nat)
    (fr : Except Unit FlowResponse) (ar : Except Unit AnswerResponse)
    (h : s.flowFinished = true) :
    (submitBranchOption s o eid fr ar).1.flowFinished = true := by
  unfold submitBranchOption
  cases hf : s.events.find? (fun e => e.id == eid) with
  | none => exact h
  | some e =>
    dsimp only
    by_cases hs : e.selectedBranch.isSome
    · rw [if_pos hs]
      exact h
    · rw [if_neg hs]
      exact hsm_flowFinished_true _ _ _ _ _ _ h

/-! ### C1 -/

/-- C1: once the finished flag is `true`, no subsequent operation of the
state machine (free text, confirmation, branch selection, or a direct
Q&A ask call) ever sets it back to `false`. -/
theorem c1_finished_monotone (s : SessionState) (op : UserOp) (t : String)
    (ar : Except Unit AnswerResponse) (h : s.flowFinished = true) :
    (stepOp s op).1.flowFinished = true ∧
    (handleAskQuestion s t ar).1.flowFinished = true := by
  refine ⟨?_, by rw [ask_flowFinished]; exact h⟩
  cases op with
  | freeText t fr ar => exact hsm_flowFinished_true _ _ _ _ _ _ h
  | confirmation a fr ar => exact hsm_flowFinished_true _ _ _ _ _ _ h
  | branchOption o eid fr ar => exact sbo_flowFinished_true _ _ _ _ _ h

/-- Witness for C1 at a concrete finished session. -/
theorem c1_witness :
    (stepOp finishedState
      (UserOp.freeText "q" (Except.error ()) (Except.error ()))).1.flowFinished = true ∧
    (handleAskQuestion finishedState "q" (Except.error ())).1.flowFinished = true :=
  c1_finished_monotone finishedState
    (UserOp.freeText "q" (Except.error ()) (Except.error ())) "q"
    (Except.error ()) (by decide)

/-! ### C3 -/

/-- C3: a branch event whose `selectedBranch` is already set rejects a
second `submitBranchOption` call targeting its id: the state is
unchanged and no request is issued (the option buttons are rendered
`disabled` once a selection exists). -/
theorem c3_branch_second_click_noop (s : SessionState) (o : String) (eid : Nat)
    (fr : Except Unit FlowResponse) (ar : Except Unit AnswerResponse)
    (e : ChatEvent)
    (hfind : s.events.find? (fun x => x.id == eid) = some e)
    (hsel : e.selectedBranch.isSome = true) :
    submitBranchOption s o eid fr ar = (s, []) := by
  unfold submitBranchOption
  rw [hfind]
  simp [hsel]

/-- Witness for C3 at a concrete state with an already-selected branch
event. -/
theorem c3_witness :
    submitBranchOption selectedState "B" 0 (Except.error ()) (Except.error ()) =
      (selectedState, []) :=
  c3_branch_second_click_noop selectedState "B" 0 (Except.error ())
    (Except.error ()) { branchEvent0 with selectedBranch := some "A" }
    (by decide) (by decide)

/-! ### C4 -/

/-- C4 counterexample: in the ChatBot / public-page surfaces a failed
start call appends no fallback event at all (the catch block only raises
a toast), so the resulting state does not contain exactly one fallback
bot event. -/
theorem c4_counterexample :
    ¬ ((chatBotInitFlow initialState (Except.error ())).1.events.length = 1) := by
  decide

/-- C4 amended: on a failed start call the embed surface replaces the
event list with exactly one fallback bot event carrying the fixed
greeting text and leaves `sessionId` unset, while the ChatBot and
public-page surfaces append no event and also leave `sessionId` unset. -/
theorem c4_start_failure :
    (startStep initialState (Except.error ())).1.events =
      [mkBotEvent 0 startFallbackText] ∧
    (mkBotEvent 0 startFallbackText).sender = Origin.bot ∧
    (startStep initialState (Except.error ())).1.sessionId = none ∧
    (chatBotInitFlow initialState (Except.error ())).1.events = [] ∧
    (chatBotInitFlow initialState (Except.error ())).1.sessionId = none :=
  ⟨rfl, rfl, rfl, rfl, rfl⟩

/-! ### C5 -/

/-- The start response of the spec's worked example:
one branch message with options `["A","B"]`, envelope awaiting-input of
type branch, not finished. -/
def branchExampleResp : FlowResponse :=
  { ok := true, sessionId := some "s1",
    messages := [{ type := "branch", content := "", message := "",
                   awaitingInput := true, options := ["A", "B"] }],
    awaitingInput := some { type := "branch" }, finished := false }

/-- C5: a raw message of type `"branch"` flagged as awaiting input
normalizes to exactly one bot event with empty text, branch decoration,
and the message's option list; on the spec's worked start example the
resulting state has that single event and a branch paused descriptor. -/
theorem c5_branch_normalization (msg : RawMessage) (nid : Nat)
    (hty : msg.type = "branch") (haw : msg.awaitingInput = true) :
    normalizeMsg nid msg =
      ([{ id := nid, sender := Origin.bot, text := "",
          showConfirmationButtons := false, showBranchOptions := true,
          branchOptions := msg.options, selectedBranch := none }], []) ∧
    (startStep initialState (Except.ok branchExampleResp)).1.events =
      [{ id := 0, sender := Origin.bot, text := "",
         showConfirmationButtons := false, showBranchOptions := true,
         branchOptions := ["A", "B"], selectedBranch := none }] ∧
    (startStep initialState (Except.ok branchExampleResp)).1.currentPausedFor =
      some { type := "branch" } ∧
    (startStep initialState (Except.ok branchExampleResp)).1.sessionId = some "s1" := by
  refine ⟨?_, by decide, by decide, by decide⟩
  unfold normalizeMsg
  rw [hty]
  simp [haw]

/-- The worked example's single raw branch message. -/
def branchExampleMsg : RawMessage :=
  { type := "branch", content := "", message := "",
    awaitingInput := true, options := ["A", "B"] }

/-- Witness for C5 at the worked example's branch message. -/
theorem c5_witness :
    normalizeMsg 0 branchExampleMsg =
      ([{ id := 0, sender := Origin.bot, text := "",
          showConfirmationButtons := false, showBranchOptions := true,
          branchOptions := ["A", "B"], selectedBranch := none }], []) ∧
    (startStep initialState (Except.ok branchExampleResp)).1.events =
      [{ id := 0, sender := Origin.bot, text := "",
         showConfirmationButtons := false, showBranchOptions := true,
         branchOptions := ["A", "B"], selectedBranch := none }] ∧
    (startStep initialState (Except.ok branchExampleResp)).1.currentPausedFor =
      some { type := "branch" } ∧
    (startStep initialState (Except.ok branchExampleResp)).1.sessionId = some "s1" :=
  c5_branch_normalization branchExampleMsg 0 rfl rfl

/-! ### C6 -/

/-- A redirect message whose content is empty: the `if (url)` guard then
suppresses the navigation. -/
def emptyRedirectMsg : RawMessage :=
  { type := "redirect", content := "", message := "", awaitingInput := false,
    options := [] }

/-- A plain text message. -/
def plainHiMsg : RawMessage :=
  { type := "text", content := "hi", message := "", awaitingInput := false,
    options := [] }

/-- C6 counterexample: a response holding one redirect-type message and
one plain message normalizes to exactly one event, but when the redirect
content is empty it produces zero navigation effects, not exactly one. -/
theorem c6_counterexample :
    (normalizeMsgs 0 [emptyRedirectMsg, plainHiMsg]).1.length = 1 ∧
    ¬ ((normalizeMsgs 0 [emptyRedirectMsg, plainHiMsg]).2.1.length = 1) := by
  decide

/-- C6 amended: one redirect-type message followed by one plain
(non-redirect, non-awaiting-branch) message normalizes to exactly one
event, built from the plain message; the redirect contributes zero
events and one navigation effect exactly when its derived target is
non-empty, the target being the content with the first occurrence of
`"Redirecting to: "` removed when that removal is non-empty, else the
raw content. -/
theorem c6_redirect_normalization (rm pm : RawMessage) (nid : Nat)
    (hr : rm.type = "redirect")
    (hp : ¬ pm.type = "redirect")
    (hpb : ¬ (pm.type = "branch" ∧ pm.awaitingInput = true)) :
    (normalizeMsgs nid [rm, pm]).1 =
      [{ id := nid + 1, sender := Origin.bot,
         text := if pm.content = "" then pm.message else pm.content,
         showConfirmationButtons :=
           decide (pm.type = "confirmation") && pm.awaitingInput,
         showBranchOptions := false, branchOptions := pm.options,
         selectedBranch := none }] ∧
    (normalizeMsgs nid [rm, pm]).2.1 =
      (if redirectTarget rm.content = "" then []
       else [Effect.navigate (redirectTarget rm.content)]) := by
  simp [normalizeMsgs, normalizeMsg, hr, hp, hpb]

/-- Witness for C6 at a concrete redirect-plus-plain response. -/
theorem c6_witness :
    (normalizeMsgs 0 [{ emptyRedirectMsg with
        content := "Redirecting to: https://a.b" }, plainHiMsg]).1 =
      [{ id := 1, sender := Origin.bot, text := "hi",
         showConfirmationButtons := false, showBranchOptions := false,
         branchOptions := [], selectedBranch := none }] ∧
    (normalizeMsgs 0 [{ emptyRedirectMsg with
        content := "Redirecting to: https://a.b" }, plainHiMsg]).2.1 =
      [Effect.navigate "https://a.b"] := by
  have h := c6_redirect_normalization
    { emptyRedirectMsg with content := "Redirecting to: https://a.b" }
    plainHiMsg 0 rfl (by decide) (by decide)
  refine ⟨?_, ?_⟩
  · rw [h.1]
    decide
  · rw [h.2]
    decide

/-! ### C8 -/

/-- C8: a Q&A ask call whose transport fails, whose HTTP status is not
ok, or whose payload lacks the `result` object appends exactly one
fixed-apology bot event after the optimistic user event, issues the ask
request, clears the loading flag, and leaves the paused descriptor
(none), finished flag and session id untouched; no exception escapes
(the operation is a total function). -/
theorem c8_ask_error_fallback (s : SessionState) (t : String)
    (ar : Except Unit AnswerResponse)
    (ht : ¬ jsTrim t = "")
    (hl : s.isLoading = false)
    (hp : s.currentPausedFor = none)
    (hfail : ar = Except.error () ∨
      ∃ resp, ar = Except.ok resp ∧ (resp.ok = false ∨ resp.result = none)) :
    (handleAskQuestion s t ar).1.events =
      s.events ++ [mkUserEvent s.nextId (jsTrim t),
                   mkBotEvent (s.nextId + 1) askErrorText] ∧
    (handleAskQuestion s t ar).2 = [Effect.askReq (jsTrim t)] ∧
    (handleAskQuestion s t ar).1.isLoading = false ∧
    (handleAskQuestion s t ar).1.currentPausedFor = none ∧
    (handleAskQuestion s t ar).1.flowFinished = s.flowFinished ∧
    (handleAskQuestion s t ar).1.sessionId = s.sessionId := by
  have hat : askAnswerText ar = askErrorText := by
    rcases hfail with h | ⟨resp, hr, hcase⟩
    · rw [h]
      rfl
    · rw [hr]
      unfold askAnswerText
      rcases hcase with h1 | h1 <;> simp [h1]
  unfold handleAskQuestion
  dsimp only
  rw [if_neg (by simp [ht, hl]), hat]
  exact ⟨rfl, rfl, rfl, hp, rfl, rfl⟩

/-- Witness for C8 at a concrete non-ok ask response. -/
theorem c8_witness :
    (handleAskQuestion finishedState "why"
        (Except.ok { ok := false, result := none })).1.events =
      finishedState.events ++
        [mkUserEvent finishedState.nextId (jsTrim "why"),
         mkBotEvent (finishedState.nextId + 1) askErrorText] ∧
    (handleAskQuestion finishedState "why"
        (Except.ok { ok := false, result := none })).2 =
      [Effect.askReq (jsTrim "why")] ∧
    (handleAskQuestion finishedState "why"
        (Except.ok { ok := false, result := none })).1.isLoading = false ∧
    (handleAskQuestion finishedState "why"
        (Except.ok { ok := false, result := none })).1.currentPausedFor = none ∧
    (handleAskQuestion finishedState "why"
        (Except.ok { ok := false, result := none })).1.flowFinished =
      finishedState.flowFinished ∧
    (handleAskQuestion finishedState "why"
        (Except.ok { ok := false, result := none })).1.sessionId =
      finishedState.sessionId :=
  c8_ask_error_fallback finishedState "why"
    (Except.ok { ok := false, result := none }) (by decide) (by decide)
    (by decide) (Or.inr ⟨{ ok := false, result := none }, rfl, Or.inl rfl⟩)

/-! ### C9 -/

/-- C9 counterexample: with `flowFinished = true` and no session id (a
state reachable from a start response carrying `finished: true` and no
`sessionId`), a free-text submission is routed to Q&A and is not a
no-op: it appends events and issues an ask request despite the missing
session. -/
theorem c9_counterexample :
    ¬ (stepOp finishedState
        (UserOp.freeText "hi" (Except.ok finishedResp) (Except.ok goodAnswer)) =
      (finishedState, [])) := by
  decide

/-- C9 amended: a free-text submission whose trimmed text is empty, or
made while a call is in flight, or made with no session id while the
flow is not finished, is a silent no-op: state unchanged and no effect
issued.  (Once the flow is finished the missing-session condition no
longer applies, as the ask endpoint takes no session id.) -/
theorem c9_validation_noop (s : SessionState) (t : String)
    (fr : Except Unit FlowResponse) (ar : Except Unit AnswerResponse)
    (h : jsTrim t = "" ∨ s.isLoading = true ∨
      (s.sessionId = none ∧ s.flowFinished = false)) :
    stepOp s (UserOp.freeText t fr ar) = (s, []) := by
  show handleSendMessage s none t false fr ar = (s, [])
  unfold handleSendMessage
  dsimp only
  rcases h with h | h | ⟨h1, h2⟩
  · rw [if_pos (Or.inl (show sendText none t = "" from h))]
  · rw [if_pos (Or.inr h)]
  · by_cases hc : sendText none t = "" ∨ s.isLoading = true
    · rw [if_pos hc]
    · rw [if_neg hc, if_neg (by simp [h2]), h1]

/-! ### C10 -/

/-- C10: a branch-option click on an unselected branch event while a
network call is in flight sets that event's `selectedBranch` (the
in-place map runs before `handleSendMessage`), but the single-flight
guard then rejects the submission: no request is issued and no event is
appended, so the state differs from the original only by the selection
mutation. -/
theorem c10_branch_click_during_loading (s : SessionState) (o : String)
    (eid : Nat) (fr : Except Unit FlowResponse)
    (ar : Except Unit AnswerResponse) (e : ChatEvent)
    (hload : s.isLoading = true)
    (hfind : s.events.find? (fun x => x.id == eid) = some e)
    (hsel : e.selectedBranch = none) :
    submitBranchOption s o eid fr ar =
      ({ s with events := s.events.map (fun x =>
          if x.id == eid then { x with selectedBranch := some o } else x) }, []) ∧
    (submitBranchOption s o eid fr ar).1.events.length = s.events.length := by
  have main : submitBranchOption s o eid fr ar =
      ({ s with events := s.events.map (fun x =>
          if x.id == eid then { x with selectedBranch := some o } else x) }, []) := by
    unfold submitBranchOption
    rw [hfind]
    dsimp only
    rw [hsel]
    simp only [Option.isSome_none, Bool.false_eq_true, if_false]
    unfold handleBranchOptionClick handleSendMessage
    dsimp only
    rw [if_pos (Or.inr (show
      ({ s with events := s.events.map (fun x =>
          if x.id == eid then { x with selectedBranch := some o } else x)
       } : SessionState).isLoading = true from hload))]
  refine ⟨main, ?_⟩
  rw [main]
  simp

/-- Witness for C10 at a concrete loading state with a pending branch
event. -/
theorem c10_witness :
    submitBranchOption loadingState "A" 0 (Except.error ()) (Except.error ()) =
      ({ loadingState with events := loadingState.events.map (fun x =>
          if x.id == 0 then { x with selectedBranch := some "A" } else x) }, []) ∧
    (submitBranchOption loadingState "A" 0 (Except.error ())
      (Except.error ())).1.events.length = loadingState.events.length :=
  c10_branch_click_during_loading loadingState "A" 0 (Except.error ())
    (Except.error ()) branchEvent0 (by decide) (by decide) (by decide)

/-! ### C7 -/

/-- C7: a start or respond response that signals `finished` (even
together with an awaiting-input descriptor) leaves the paused descriptor
`none`, sets the finished flag, and appends one synthesized non-empty
bot completion event after all normalized per-message events.  The start
conjunct runs from the mount state; the respond conjunct runs from any
state accepting a free-text submission. -/
theorem c7_finished_completion (s : SessionState) (resp : FlowResponse)
    (sid : String) (t : String) (ar : Except Unit AnswerResponse)
    (hfin : resp.finished = true)
    (hok : resp.ok = true)
    (ht : ¬ jsTrim t = "")
    (hload : s.isLoading = false)
    (hnotfin : s.flowFinished = false)
    (hsid : s.sessionId = some sid) :
    ((startStep initialState (Except.ok resp)).1.currentPausedFor = none ∧
     (startStep initialState (Except.ok resp)).1.flowFinished = true ∧
     (startStep initialState (Except.ok resp)).1.events =
       (normalizeMsgs 0 resp.messages).1 ++
         [mkBotEvent (normalizeMsgs 0 resp.messages).2.2 startCompletionText]) ∧
    ((handleSendMessage s none t false (Except.ok resp) ar).1.currentPausedFor
        = none ∧
     (handleSendMessage s none t false (Except.ok resp) ar).1.flowFinished
        = true ∧
     (handleSendMessage s none t false (Except.ok resp) ar).1.events =
       s.events ++ [mkUserEvent s.nextId (jsTrim t)] ++
         (normalizeMsgs (s.nextId + 1) resp.messages).1 ++
         [mkBotEvent (normalizeMsgs (s.nextId + 1) resp.messages).2.2
           respondCompletionText]) ∧
    (mkBotEvent (normalizeMsgs 0 resp.messages).2.2 startCompletionText).sender
      = Origin.bot ∧
    ¬ startCompletionText = "" ∧
    (mkBotEvent (normalizeMsgs (s.nextId + 1) resp.messages).2.2
      respondCompletionText).sender = Origin.bot ∧
    ¬ respondCompletionText = "" := by
  refine ⟨?_, ?_, rfl, by decide, rfl, by decide⟩
  · unfold startStep
    dsimp only
    rw [if_pos hfin]
    cases hs : resp.sessionId with
    | none => exact ⟨rfl, rfl, rfl⟩
    | some v => exact ⟨rfl, rfl, rfl⟩
  · unfold handleSendMessage
    dsimp only
    rw [if_neg (by simp [ht, hload, sendText]), if_neg (by simp [hnotfin]),
      hsid]
    dsimp only
    unfold applyFlowResponse
    rw [if_pos hok, if_pos hfin]
    refine ⟨rfl, rfl, ?_⟩
    show (s.events ++ [mkUserEvent s.nextId (sendText none t)]) ++ _ ++ _ = _
    rw [show sendText none t = jsTrim t from rfl]

/-- An active flow state paused on a question, with a session id. -/
def activeState : SessionState :=
  { events := [], isLoading := false,
    currentPausedFor := some { type := "question" },
    sessionId := some "s1", flowFinished := false, nextId := 0 }

/-- Witness for C7 at the concrete finished response and an active
session. -/
theorem c7_witness :
    ((startStep initialState (Except.ok finishedResp)).1.currentPausedFor = none ∧
     (startStep initialState (Except.ok finishedResp)).1.flowFinished = true ∧
     (startStep initialState (Except.ok finishedResp)).1.events =
       (normalizeMsgs 0 finishedResp.messages).1 ++
         [mkBotEvent (normalizeMsgs 0 finishedResp.messages).2.2
           startCompletionText]) ∧
    ((handleSendMessage activeState none "hi" false (Except.ok finishedResp)
        (Except.error ())).1.currentPausedFor = none ∧
     (handleSendMessage activeState none "hi" false (Except.ok finishedResp)
        (Except.error ())).1.flowFinished = true ∧
     (handleSendMessage activeState none "hi" false (Except.ok finishedResp)
        (Except.error ())).1.events =
       activeState.events ++ [mkUserEvent activeState.nextId (jsTrim "hi")] ++
         (normalizeMsgs (activeState.nextId + 1) finishedResp.messages).1 ++
         [mkBotEvent
           (normalizeMsgs (activeState.nextId + 1) finishedResp.messages).2.2
           respondCompletionText]) ∧
    (mkBotEvent (normalizeMsgs 0 finishedResp.messages).2.2
      startCompletionText).sender = Origin.bot ∧
    ¬ startCompletionText = "" ∧
    (mkBotEvent (normalizeMsgs (activeState.nextId + 1) finishedResp.messages).2.2
      respondCompletionText).sender = Origin.bot ∧
    ¬ respondCompletionText = "" :=
  c7_finished_completion activeState finishedResp "s1" "hi" (Except.error ())
    rfl rfl (by decide) rfl rfl rfl

/-- Witness for C9's amended no-op at the mount state (no session yet,
flow not finished). -/
theorem c9_witness :
    stepOp initialState
      (UserOp.freeText "hi" (Except.error ()) (Except.error ())) =
      (initialState, []) :=
  c9_validation_noop initialState "hi" (Except.error ()) (Except.error ())
    (Or.inr (Or.inr ⟨rfl, rfl⟩))

/-! ### C2: append-only event log -/

/-- The id fields of the event constructors. -/
@[simp] theorem mkUserEvent_id (n : Nat) (t : String) : (mkUserEvent n t).id = n := rfl

/-- The bot constructor's id field. -/
@[simp] theorem mkBotEvent_id (n : Nat) (t : String) : (mkBotEvent n t).id = n := rfl

/-- Compatibility of one event across operations: every field unchanged,
except that an unset `selectedBranch` may become set. -/
def evCompat (a b : ChatEvent) : Prop :=
  b.id = a.id ∧ b.sender = a.sender ∧ b.text = a.text ∧
  b.showConfirmationButtons = a.showConfirmationButtons ∧
  b.showBranchOptions = a.showBranchOptions ∧
  b.branchOptions = a.branchOptions ∧
  (b.selectedBranch = a.selectedBranch ∨ a.selectedBranch = none)

/-- Reflexivity of `evCompat`. -/
theorem evCompat_refl (a : ChatEvent) : evCompat a a :=
  ⟨rfl, rfl, rfl, rfl, rfl, rfl, Or.inl rfl⟩

/-- Transitivity of `evCompat`. -/
theorem evCompat_trans {a b c : ChatEvent} (h1 : evCompat a b)
    (h2 : evCompat b c) : evCompat a c := by
  obtain ⟨i1, s1, t1, c1, b1, o1, l1⟩ := h1
  obtain ⟨i2, s2, t2, c2, b2, o2, l2⟩ := h2
  refine ⟨i2.trans i1, s2.trans s1, t2.trans t1, c2.trans c1, b2.trans b1,
    o2.trans o1, ?_⟩
  rcases l1 with l1 | l1
  · rcases l2 with l2 | l2
    · exact Or.inl (l2.trans l1)
    · refine Or.inr ?_
      rw [← l1]
      exact l2
  · exact Or.inr l1

/-- Positional compatibility of two event lists: the second is at least
as long and agrees with the first on every common index up to a
`selectedBranch` being set. -/
def listCompat (xs ys : List ChatEvent) : Prop :=
  xs.length ≤ ys.length ∧
  ∀ i : Nat, ∀ hx : i < xs.length, ∀ hy : i < ys.length,
    evCompat (xs.get ⟨i, hx⟩) (ys.get ⟨i, hy⟩)

/-- Reflexivity of `listCompat`. -/
theorem listCompat_refl (xs : List ChatEvent) : listCompat xs xs :=
  ⟨le_refl _, fun _ _ _ => evCompat_refl _⟩

/-- Transitivity of `listCompat`. -/
theorem listCompat_trans {xs ys zs : List ChatEvent}
    (h1 : listCompat xs ys) (h2 : listCompat ys zs) : listCompat xs zs := by
  refine ⟨h1.1.trans h2.1, fun i hx hz => ?_⟩
  have hy : i < ys.length := lt_of_lt_of_le hx h1.1
  exact evCompat_trans (h1.2 i hx hy) (h2.2 i hy hz)

/-- Appending events on the right preserves compatibility. -/
theorem listCompat_append (xs ys : List ChatEvent) :
    listCompat xs (xs ++ ys) := by
  refine ⟨by simp, fun i hx hy => ?_⟩
  have h : (xs ++ ys).get ⟨i, hy⟩ = xs.get ⟨i, hx⟩ := List.get_append i hx
  rw [h]
  exact evCompat_refl _

/-- The id-discipline invariant on the event log: all ids below the
counter and pairwise distinct. -/
def invE (xs : List ChatEvent) (n : Nat) : Prop :=
  (∀ e ∈ xs, e.id < n) ∧ (xs.map (fun e => e.id)).Nodup

/-- The session-state id invariant. -/
def StInv (s : SessionState) : Prop := invE s.events s.nextId

/-- Appending a block of fresh events (ids at or above the old counter,
below the new one, pairwise distinct) preserves the id discipline. -/
theorem invE_append {xs : List ChatEvent} {n : Nat} {ys : List ChatEvent}
    {m : Nat} (h : invE xs n)
    (hlo : ∀ e ∈ ys, n ≤ e.id)
    (hhi : ∀ e ∈ ys, e.id < m)
    (hnd : (ys.map (fun e => e.id)).Nodup)
    (hnm : n ≤ m) :
    invE (xs ++ ys) m := by
  constructor
  · intro e he
    rcases List.mem_append.mp he with he | he
    · exact lt_of_lt_of_le (h.1 e he) hnm
    · exact hhi e he
  · rw [List.map_append]
    refine List.Nodup.append h.2 hnd ?_
    intro a ha hb
    rcases List.mem_map.mp ha with ⟨e, he, rfl⟩
    rcases List.mem_map.mp hb with ⟨f, hf, hfe⟩
    have h1 := h.1 e he
    have h2 := hlo f hf
    omega

/-- A message normalizes to no event or to a single event carrying the
current counter value as its id. -/
theorem normalizeMsg_shape (nid : Nat) (m : RawMessage) :
    (normalizeMsg nid m).1 = [] ∨
    ∃ x : ChatEvent, (normalizeMsg nid m).1 = [x] ∧ x.id = nid := by
  unfold normalizeMsg
  split
  · exact Or.inl rfl
  · split
    · exact Or.inr ⟨_, rfl, rfl⟩
    · exact Or.inr ⟨_, rfl, rfl⟩

/-- Normalization respects the id discipline: the counter never
decreases, every produced event's id lies in the consumed counter
range, and the produced ids are pairwise distinct. -/
theorem normalizeMsgs_ids (msgs : List RawMessage) : ∀ nid : Nat,
    nid ≤ (normalizeMsgs nid msgs).2.2 ∧
    (∀ e ∈ (normalizeMsgs nid msgs).1,
      nid ≤ e.id ∧ e.id < (normalizeMsgs nid msgs).2.2) ∧
    ((normalizeMsgs nid msgs).1.map (fun e => e.id)).Nodup := by
  induction msgs with
  | nil =>
    intro nid
    exact ⟨le_refl _, by simp [normalizeMsgs], by simp [normalizeMsgs]⟩
  | cons m rest ih =>
    intro nid
    obtain ⟨h1, h2, h3⟩ := ih (nid + 1)
    have hshape := normalizeMsg_shape nid m
    refine ⟨?_, ?_, ?_⟩
    · show nid ≤ (normalizeMsgs (nid + 1) rest).2.2
      omega
    · intro e he
      show nid ≤ e.id ∧ e.id < (normalizeMsgs (nid + 1) rest).2.2
      rcases List.mem_append.mp he with he | he
      · rcases hshape with hsh | ⟨x, hsh, hid⟩
        · rw [hsh] at he
          simp at he
        · rw [hsh] at he
          rcases List.mem_singleton.mp he with rfl
          omega
      · have := h2 e he
        omega
    · show (((normalizeMsg nid m).1 ++ (normalizeMsgs (nid + 1) rest).1).map
        (fun e => e.id)).Nodup
      rw [List.map_append]
      refine List.Nodup.append ?_ h3 ?_
      · rcases hshape with hsh | ⟨x, hsh, _⟩ <;> simp [hsh]
      · intro a ha hb
        rcases List.mem_map.mp ha with ⟨e, he, rfl⟩
        rcases List.mem_map.mp hb with ⟨f, hf, hfe⟩
        rcases hshape with hsh | ⟨x, hsh, hid⟩
        · rw [hsh] at he
          simp at he
        · rw [hsh] at he
          rcases List.mem_singleton.mp he with rfl
          have := (h2 f hf).1
          omega

/-- The selection map of `handleBranchOptionClick` preserves ids. -/
theorem selMap_id (eid : Nat) (o : String) (x : ChatEvent) :
    ((fun x => if x.id == eid then { x with selectedBranch := some o }
      else x) x).id = x.id := by
  by_cases hxe : x.id == eid <;> simp [hxe]

/-- The selection map preserves the id discipline. -/
theorem invE_selMap (xs : List ChatEvent) (n : Nat) (eid : Nat) (o : String)
    (h : invE xs n) :
    invE (xs.map (fun x => if x.id == eid then
      { x with selectedBranch := some o } else x)) n := by
  constructor
  · intro e he
    rcases List.mem_map.mp he with ⟨x, hx, rfl⟩
    rw [selMap_id]
    exact h.1 x hx
  · have hfun : ((fun e : ChatEvent => e.id) ∘ (fun x =>
        if x.id == eid then { x with selectedBranch := some o } else x)) =
        (fun e : ChatEvent => e.id) := by
      funext x
      exact selMap_id eid o x
    rw [List.map_map, hfun]
    exact h.2

/-- When every event carrying the targeted id is still unselected, the
selection map only sets formerly-unset `selectedBranch` fields, so the
mapped list is compatible with the original. -/
theorem listCompat_selMap (xs : List ChatEvent) (eid : Nat) (o : String)
    (hall : ∀ x ∈ xs, x.id = eid → x.selectedBranch = none) :
    listCompat xs (xs.map (fun x => if x.id == eid then
      { x with selectedBranch := some o } else x)) := by
  refine ⟨by simp, fun i hx hy => ?_⟩
  have hg : (xs.map (fun x => if x.id == eid then
      { x with selectedBranch := some o } else x)).get ⟨i, hy⟩ =
      (fun x => if x.id == eid then { x with selectedBranch := some o }
        else x) (xs.get ⟨i, hx⟩) := by
    simp
  rw [hg]
  dsimp only
  by_cases hid : (xs.get ⟨i, hx⟩).id == eid
  · rw [if_pos hid]
    refine ⟨rfl, rfl, rfl, rfl, rfl, rfl, Or.inr ?_⟩
    exact hall _ (xs.get_mem _ _) (by simpa using hid)
  · rw [if_neg hid]
    exact evCompat_refl _

/-- The ask call preserves the id discipline and only appends. -/
theorem ask_grows (s : SessionState) (t : String)
    (ar : Except Unit AnswerResponse) (hInv : StInv s) :
    StInv (handleAskQuestion s t ar).1 ∧
    listCompat s.events (handleAskQuestion s t ar).1.events := by
  unfold handleAskQuestion
  dsimp only
  split
  · exact ⟨hInv, listCompat_refl _⟩
  · constructor
    · show invE (s.events ++ [mkUserEvent s.nextId (jsTrim t),
        mkBotEvent (s.nextId + 1) (askAnswerText ar)]) (s.nextId + 2)
      refine invE_append hInv ?_ ?_ ?_ (by omega)
      · intro e he
        rcases List.mem_cons.mp he with rfl | he
        · simp
        · rcases List.mem_singleton.mp he with rfl
          simp
      · intro e he
        rcases List.mem_cons.mp he with rfl | he
        · simp
        · rcases List.mem_singleton.mp he with rfl
          simp
      · simp
    · show listCompat s.events (s.events ++ [mkUserEvent s.nextId (jsTrim t),
        mkBotEvent (s.nextId + 1) (askAnswerText ar)])
      exact listCompat_append _ _

/-- Appending one fresh event with the current counter as id preserves
the id discipline. -/
theorem invE_push {xs : List ChatEvent} {n : Nat} (h : invE xs n)
    (e : ChatEvent) (he : e.id = n) : invE (xs ++ [e]) (n + 1) := by
  refine invE_append h ?_ ?_ ?_ (by omega)
  · intro f hf
    rcases List.mem_singleton.mp hf with rfl
    omega
  · intro f hf
    rcases List.mem_singleton.mp hf with rfl
    omega
  · simp

/-- The send handler preserves the id discipline and only appends to
the event log. -/
theorem hsm_grows (s : SessionState) (oi : Option String) (it : String)
    (ib : Bool) (fr : Except Unit FlowResponse)
    (ar : Except Unit AnswerResponse) (hInv : StInv s) :
    StInv (handleSendMessage s oi it ib fr ar).1 ∧
    listCompat s.events (handleSendMessage s oi it ib fr ar).1.events := by
  unfold handleSendMessage
  dsimp only
  by_cases h1 : sendText oi it = "" ∨ s.isLoading = true
  · rw [if_pos h1]
    exact ⟨hInv, listCompat_refl _⟩
  · rw [if_neg h1]
    by_cases h2 : s.flowFinished = true
    · rw [if_pos h2]
      exact ask_grows s it ar hInv
    · rw [if_neg h2]
      cases hsid : s.sessionId with
      | none => exact ⟨hInv, listCompat_refl _⟩
      | some sid =>
        dsimp only
        have hInv1 : invE (s.events ++ [mkUserEvent s.nextId (sendText oi it)])
            (s.nextId + 1) := invE_push hInv _ rfl
        have hc1 : listCompat s.events
            (s.events ++ [mkUserEvent s.nextId (sendText oi it)]) :=
          listCompat_append _ _
        cases fr with
        | error e =>
          unfold flowErrorAppend
          refine ⟨invE_push hInv1 _ rfl, listCompat_trans hc1 (listCompat_append _ _)⟩
        | ok data =>
          unfold applyFlowResponse
          dsimp only
          by_cases hok : data.ok = true
          · rw [if_pos hok]
            obtain ⟨hn1, hn2, hn3⟩ := normalizeMsgs_ids data.messages (s.nextId + 1)
            have hInv2 : invE ((s.events ++ [mkUserEvent s.nextId (sendText oi it)])
                ++ (normalizeMsgs (s.nextId + 1) data.messages).1)
                (normalizeMsgs (s.nextId + 1) data.messages).2.2 :=
              invE_append hInv1 (fun e he => (hn2 e he).1)
                (fun e he => (hn2 e he).2) hn3 hn1
            by_cases hfin : data.finished = true
            · rw [if_pos hfin]
              refine ⟨invE_push hInv2 _ rfl, ?_⟩
              exact listCompat_trans hc1 (listCompat_trans
                (listCompat_append _ _) (listCompat_append _ _))
            · rw [if_neg hfin]
              exact ⟨hInv2, listCompat_trans hc1 (listCompat_append _ _)⟩
          · rw [if_neg hok]
            unfold flowErrorAppend
            refine ⟨invE_push hInv1 _ rfl, listCompat_trans hc1 (listCompat_append _ _)⟩

/-- The branch-option operation preserves the id discipline and changes
existing events at most by setting an unset `selectedBranch`. -/
theorem sbo_grows (s : SessionState) (o : String) (eid : Nat)
    (fr : Except Unit FlowResponse) (ar : Except Unit AnswerResponse)
    (hInv : StInv s) :
    StInv (submitBranchOption s o eid fr ar).1 ∧
    listCompat s.events (submitBranchOption s o eid fr ar).1.events := by
  unfold submitBranchOption
  cases hf : s.events.find? (fun e => e.id == eid) with
  | none => exact ⟨hInv, listCompat_refl _⟩
  | some e =>
    dsimp only
    by_cases hs : e.selectedBranch.isSome
    · rw [if_pos hs]
      exact ⟨hInv, listCompat_refl _⟩
    · rw [if_neg hs]
      unfold handleBranchOptionClick
      have hall : ∀ x ∈ s.events, x.id = eid → x.selectedBranch = none := by
        intro x hx hxe
        have hmem : e ∈ s.events := List.mem_of_find?_eq_some hf
        have hpe := List.find?_some hf
        have hee : e.id = eid := by simpa using hpe
        have hxeq : x = e := by
          refine List.inj_on_of_nodup_map (f := fun e => e.id) hInv.2 hx hmem ?_
          show x.id = e.id
          rw [hxe, hee]
        rw [hxeq]
        exact Option.not_isSome_iff_eq_none.mp hs
      have hInv1 : StInv { s with events := s.events.map (fun x =>
          if x.id == eid then { x with selectedBranch := some o } else x) } :=
        invE_selMap s.events s.nextId eid o hInv
      have hc1 : listCompat s.events
          (s.events.map (fun x => if x.id == eid then
            { x with selectedBranch := some o } else x)) :=
        listCompat_selMap s.events eid o hall
      have h2 := hsm_grows { s with events := s.events.map (fun x =>
          if x.id == eid then { x with selectedBranch := some o } else x) }
        (some o) "" true fr ar hInv1
      exact ⟨h2.1, listCompat_trans hc1 h2.2⟩

/-- Every state-machine operation preserves the id discipline and only
extends or selection-marks the event log. -/
theorem step_grows (s : SessionState) (op : UserOp) (hInv : StInv s) :
    StInv (stepOp s op).1 ∧ listCompat s.events (stepOp s op).1.events := by
  cases op with
  | freeText t fr ar => exact hsm_grows s none t false fr ar hInv
  | confirmation a fr ar => exact hsm_grows s (some a) "" false fr ar hInv
  | branchOption o eid fr ar => exact sbo_grows s o eid fr ar hInv

/-- Running any operation sequence preserves the id discipline and only
extends or selection-marks the event log. -/
theorem run_grows (ops : List UserOp) : ∀ s : SessionState, StInv s →
    StInv (runOps s ops) ∧ listCompat s.events (runOps s ops).events := by
  induction ops with
  | nil =>
    intro s h
    exact ⟨h, listCompat_refl _⟩
  | cons op rest ih =>
    intro s h
    have h1 := step_grows s op h
    have h2 := ih (stepOp s op).1 h1.1
    exact ⟨h2.1, listCompat_trans h1.2 h2.2⟩

/-- The start step establishes the id discipline from the mount state. -/
theorem start_inv (r : Except Unit FlowResponse) :
    StInv (startStep initialState r).1 := by
  cases r with
  | error e =>
    show invE [mkBotEvent initialState.nextId startFallbackText]
      (initialState.nextId + 1)
    refine ⟨?_, by simp⟩
    intro ev he
    rcases List.mem_singleton.mp he with rfl
    rw [mkBotEvent_id]
    omega
  | ok data =>
    unfold startStep
    dsimp only
    obtain ⟨hn1, hn2, hn3⟩ := normalizeMsgs_ids data.messages 0
    have hbase : invE (normalizeMsgs 0 data.messages).1
        (normalizeMsgs 0 data.messages).2.2 :=
      ⟨fun e he => (hn2 e he).2, hn3⟩
    have hfinished : invE ((normalizeMsgs 0 data.messages).1 ++
        [mkBotEvent (normalizeMsgs 0 data.messages).2.2 startCompletionText])
        ((normalizeMsgs 0 data.messages).2.2 + 1) :=
      invE_push hbase _ rfl
    cases hsid : data.sessionId with
    | none =>
      by_cases hfin : data.finished = true
      · rw [if_pos hfin]
        exact hfinished
      · rw [if_neg hfin]
        exact hbase
    | some v =>
      by_cases hfin : data.finished = true
      · rw [if_pos hfin]
        exact hfinished
      · rw [if_neg hfin]
        exact hbase

/-- C2: after a start call, any sequence of free-text, confirmation and
branch-option operations only grows the event list: the length is
monotonically non-decreasing and every existing event stays at its
position with all fields unchanged, except that an unset
`selectedBranch` may become set. -/
theorem c2_events_append_only (r : Except Unit FlowResponse)
    (ops : List UserOp) :
    listCompat (startStep initialState r).1.events
      (runOps (startStep initialState r).1 ops).events :=
  (run_grows ops (startStep initialState r).1 (start_inv r)).2
